import Mathlib

/-!
Verification of the campaign and task scheduling subsystem of the
SimpleBot Telegram forwarder (src/userbot.py) against its natural-language
specification.

The Python module is shallowly embedded below: the shared mutable state of
the `MessageForwarder` class becomes the structure `Forwarder`; Python
dicts (which preserve insertion order, replace on assignment to an
existing key, and append on assignment to a fresh key) become association
lists manipulated through `dictSet` / `dictDel`; Python sets with
in-place mutation become `Finset Int`; `asyncio` tasks become entries of
an explicit `TaskStore` with a status per task id.  Each command handler
`cmd_*` is translated from the body of the corresponding Python method;
the text-lexing layer (splitting `event.text`, `int(...)` parsing,
Telethon entity resolution) is elided: handlers receive the already-lexed
arguments, exactly as the source uses them after its parsing prologue.
Naive `datetime` values are embedded as integer microseconds on the
proleptic Gregorian timeline (python datetime comparison and timedelta
arithmetic are exact in that representation).
-/

namespace SimpleBot

/-! ## Python dict operations on association lists -/

/-- Assignment `d[k] = v` on a Python dict: replaces the value in place if
the key is present (keeping insertion order), appends otherwise. -/
def dictSet {α : Type} (d : List (String × α)) (k : String) (v : α) :
    List (String × α) :=
  if (d.lookup k).isSome then
    d.map (fun p => if p.1 = k then (k, v) else p)
  else
    d ++ [(k, v)]

/-- Deletion `del d[k]` on a Python dict. -/
def dictDel {α : Type} (d : List (String × α)) (k : String) :
    List (String × α) :=
  d.filter (fun p => p.1 ≠ k)

/-! ## Tasks (asyncio.Task objects owned by the forwarder) -/

/-- Status of an asyncio task in the model: `running` while the coroutine
is alive, `cancelled` once `task.cancel()` was called on a live task,
`finished` once the coroutine returned. -/
inductive TaskStatus
  | running
  | cancelled
  | finished
deriving DecidableEq, Repr

/-- Python `task.done()`: true for a task that is no longer running. -/
def TaskStatus.done : TaskStatus → Bool
  | .running => false
  | _ => true

/-- The `targets` argument handed to `forward_stored_message` and
`_schedule_forward`.  `cmd_startad` and `cmd_schedule` pass the live
`self.target_chats` object (all mutations of that set in the source are
in-place `add` / `remove` / `clear`, so the reference always observes the
current set), embedded as `live`; `cmd_targetedad` passes a freshly built
set it owns, embedded as `frozen`. -/
inductive TargetsRef
  | live
  | frozen (targets : Finset Int)
deriving DecidableEq

/-- The coroutine a task runs together with its captured arguments:
`forward` is `forward_stored_message(msg_id, targets, interval)`,
`oneShot` is `_schedule_forward(msg_id, targets, schedule_time)` with the
fire time in microseconds. -/
inductive Job
  | forward (msg_id : String) (targets : TargetsRef) (interval : Nat)
  | oneShot (msg_id : String) (targets : TargetsRef) (fire : Int)
deriving DecidableEq

/-- Payload identifier a job forwards. -/
def Job.msgId : Job → String
  | .forward m _ _ => m
  | .oneShot m _ _ => m

/-- All tasks ever created: `next` is the next fresh task id, `status`
and `job` describe each allocated id. -/
structure TaskStore where
  next : Nat
  status : Nat → TaskStatus
  job : Nat → Option Job

/-- `asyncio.create_task(...)`: allocates a fresh running task. -/
def TaskStore.spawn (ts : TaskStore) (j : Job) : TaskStore × Nat :=
  ({ next := ts.next + 1
     status := fun n => if n = ts.next then .running else ts.status n
     job := fun n => if n = ts.next then some j else ts.job n },
   ts.next)

/-- `task.cancel()`: a running task becomes cancelled; a task that is
already done is unaffected. -/
def TaskStore.cancel (ts : TaskStore) (t : Nat) : TaskStore :=
  { ts with
    status := fun n =>
      if n = t then (if ts.status t = .running then .cancelled else ts.status t)
      else ts.status n }

/-- Normal return of the coroutine of a running task. -/
def TaskStore.finish (ts : TaskStore) (t : Nat) : TaskStore :=
  { ts with
    status := fun n =>
      if n = t then (if ts.status t = .running then .finished else ts.status t)
      else ts.status n }

/-! ## Analytics ledger -/

/-- The `self.analytics` dicts: `forwards` maps a day string
`YYYY-MM-DD` to a dict from campaign key `msgid_target` to a success
count; `failures` maps a day to a dict from campaign key to the list of
failure reasons. -/
structure Analytics where
  forwards : List (String × List (String × Nat))
  failures : List (String × List (String × List String))
deriving DecidableEq

/-- Success bump performed by `forward_stored_message` on a delivered
message: ensure the day bucket and the campaign-key counter exist, then
increment. -/
def Analytics.recordForward (a : Analytics) (day key : String) : Analytics :=
  let dayMap := (a.forwards.lookup day).getD []
  let c := (dayMap.lookup key).getD 0
  { a with forwards := dictSet a.forwards day (dictSet dayMap key (c + 1)) }

/-- Failure append performed by `forward_stored_message` when a delivery
raises: ensure the day bucket and the campaign-key list exist, then
append the reason. -/
def Analytics.recordFailure (a : Analytics) (day key reason : String) : Analytics :=
  let dayMap := (a.failures.lookup day).getD []
  let l := (dayMap.lookup key).getD []
  { a with failures := dictSet a.failures day (dictSet dayMap key (l ++ [reason])) }

/-! ## Forwarder state -/

/-- A record of `self.targeted_campaigns[campaign_id]`. -/
structure Campaign where
  msg_id : String
  targets : Finset Int
  interval : Nat
  start_time : Int
deriving DecidableEq

/-- The shared mutable state of `MessageForwarder`: lifecycle flag, live
destination set, default interval, saved payloads (dict from message id
to an opaque message handle), the two task dicts, targeted-campaign
records, the dynamic admin set, the analytics ledger and the task
store. -/
structure Forwarder where
  forwarding_enabled : Bool
  target_chats : Finset Int
  forward_interval : Nat
  stored_messages : List (String × Nat)
  forwarding_tasks : List (String × Nat)
  scheduled_tasks : List (String × Nat)
  targeted_campaigns : List (String × Campaign)
  admins : Finset Int
  analytics : Analytics
  tasks : TaskStore

/-- Destination set a job delivers to at a given instant: the live
`self.target_chats` for a `live` reference, the owned frozen set
otherwise. -/
def Forwarder.resolveTargets (st : Forwarder) : TargetsRef → Finset Int
  | .live => st.target_chats
  | .frozen s => s

/-- Entries of `self._forwarding_tasks` whose task is still running and
whose job forwards the payload `m`. -/
def Forwarder.liveTasksReferencing (st : Forwarder) (m : String) :
    List (String × Nat) :=
  st.forwarding_tasks.filter (fun p =>
    st.tasks.status p.2 = TaskStatus.running &&
      ((st.tasks.job p.2).map Job.msgId = some m))

/-! ## Replies -/

/-- Per-day totals and derived figures computed by `cmd_analytics`:
`daily` is date to (forwards, failures), oldest first. -/
structure AnalyticsSummary where
  daily : List (String × Nat × Nat)
  total_forwards : Nat
  total_failures : Nat
  success_rate : ℚ
  change : Option ℚ
deriving DecidableEq

/-- User-visible replies, abbreviated to tags (the spec places
human-readable text formatting out of scope). -/
inductive Reply
  | offlineNotice
  | usageError
  | notFound (id : String)
  | intervalTooShort
  | noTargets
  | adStarted (id : String) (interval : Nat)
  | adRemoved (id : String)
  | campaignStarted (cid : String)
  | campaignStopped (cid : String)
  | scheduleSet (sid : String)
  | invalidTime
  | pastTime
  | allocExhausted
  | cannotRemoveOriginalAdmin
  | notAnAdmin (uid : Int)
  | adminRemoved (uid : Int)
  | alreadyAdmin (uid : Int)
  | adminAdded (uid : Int)
  | targetAdded (chat : Int)
  | messageSaved (id : String)
  | analyticsReport (s : AnalyticsSummary)
  | invalidDays
deriving DecidableEq

/-! ## The authorization gate (`admin_only` decorator) -/

/-- An incoming Telethon event, reduced to the two attributes the
decorator reads: the resolved sender id (`None` when all the fallbacks
fail) and the raw command text. -/
structure Event where
  sender : Option Int
  text : String

/-- Longest run of non-whitespace characters at the head. -/
def takeNonWhite : List Char → List Char
  | [] => []
  | c :: cs => if c.isWhitespace then [] else c :: takeNonWhite cs

/-- First word of a Python `str.split()`: skip leading whitespace, then
the maximal non-whitespace run; `none` when the text is whitespace
only (so `split()` returns the empty list). -/
def firstWord : List Char → Option (List Char)
  | [] => none
  | c :: cs => if c.isWhitespace then firstWord cs else some (c :: takeNonWhite cs)

/-- Python `str.startswith(pat)`. -/
def pyStartsWith : List Char → List Char → Bool
  | _, [] => true
  | [], _ :: _ => false
  | c :: cs, d :: ds => c = d && pyStartsWith cs ds

/-- Computation of `command_name` in the decorator:
`event.text.split()[0].lower() if event.text else ""`.  A nonempty text
of pure whitespace makes the subscript raise; the exception is caught by
the surrounding `try` and the wrapper returns silently, embedded here as
`none`. -/
def commandNameOf (text : String) : Option String :=
  if text = "" then some "" else
    match firstWord text.data with
    | none => none
    | some w => some (String.mk (w.map Char.toLower))

/-- The `admin_only` decorator wrapped around a handler: silent return
for an undetermined sender or a non-admin sender; the `/start` bypass
while disabled; the offline notice (suppressed for `/silent...` command
names) for every other command while disabled; otherwise the handler
runs. -/
def admin_only (funcName : String)
    (handler : Forwarder → Event → Forwarder × List Reply)
    (st : Forwarder) (ev : Event) : Forwarder × List Reply :=
  match commandNameOf ev.text with
  | none => (st, [])
  | some command_name =>
    let is_start_command := funcName = "cmd_start" || command_name = "/start"
    match ev.sender with
    | none => (st, [])
    | some sender =>
      if sender ∉ st.admins then (st, [])
      else if is_start_command && !st.forwarding_enabled then handler st ev
      else if !st.forwarding_enabled then
        (st, if pyStartsWith command_name.data "/silent".data then []
          else [Reply.offlineNotice])
      else handler st ev

/-! ## Admin management commands -/

/-- Body of `cmd_addadmin` after the user id is resolved. -/
def cmd_addadmin (st : Forwarder) (user_id : Int) : Forwarder × Reply :=
  if user_id ∈ st.admins then (st, .alreadyAdmin user_id)
  else ({ st with admins := insert user_id st.admins }, .adminAdded user_id)

/-- Body of `cmd_removeadmin` after the user id is resolved;
`cfgAdminIds` is `config.ADMIN_IDS`, the originally configured admin
list. -/
def cmd_removeadmin (cfgAdminIds : List Int) (st : Forwarder) (user_id : Int) :
    Forwarder × Reply :=
  if user_id ∈ cfgAdminIds ∧ st.admins.card ≤ 1 then
    (st, .cannotRemoveOriginalAdmin)
  else if user_id ∉ st.admins then (st, .notAnAdmin user_id)
  else ({ st with admins := st.admins.erase user_id }, .adminRemoved user_id)

/-! ## Identifier allocation (`generate_campaign_id`) -/

/-- Candidate identifiers in the deterministic preference order of
`generate_campaign_id`: the digits "1".."9", then the uppercase letters
"A".."Z". -/
def campaignIdCandidates : List String :=
  (List.range 9).map (fun i => toString (i + 1)) ++
    (List.range 26).map (fun i => String.mk [Char.ofNat (65 + i)])

/-- `generate_campaign_id()`: returns the first candidate not in
`existing`, which in the source is always the key set of
`MessageForwarder.instance.stored_messages` (never the campaign or
schedule key sets).  The unbounded random fallback loop is embedded as an
explicit stream `randFallback` of drawn candidates; `none` stands for
exhausting that stream, which the source answers by drawing forever. -/
def generate_campaign_id (existing : List String) (randFallback : List String) :
    Option String :=
  (campaignIdCandidates ++ randFallback).find? (fun s => !(existing.contains s))

/-- Key set of `self.stored_messages`. -/
def storedKeys (st : Forwarder) : List String := st.stored_messages.map Prod.fst

/-! ## Payload and task commands -/

/-- Body of `cmd_setad` on a reply event: allocate a fresh message id and
store the replied message (an opaque handle) under it. -/
def cmd_setad (st : Forwarder) (replied_msg : Nat) (randFallback : List String) :
    Forwarder × Reply :=
  match generate_campaign_id (storedKeys st) randFallback with
  | none => (st, .allocExhausted)
  | some msg_id =>
    ({ st with stored_messages := dictSet st.stored_messages msg_id replied_msg },
      .messageSaved msg_id)

/-- The cancel-if-live step of `cmd_startad`: when a not-done task is
already registered under the payload key, cancel it (the entry itself
is left to be overwritten by the following dict assignment). -/
def startadSweep (st : Forwarder) (msg_id : String) : TaskStore :=
  match st.forwarding_tasks.lookup msg_id with
  | some tid => if (st.tasks.status tid).done then st.tasks else st.tasks.cancel tid
  | none => st.tasks

/-- The cancel-and-deregister step shared by `cmd_removead`,
`cmd_stopad` and `cmd_stoptargetad`: for the dict entry under `key`
whose task is not done, cancel the task and delete the entry; returns
the new task store and task dict. -/
def stopSweep (st : Forwarder) (key : String) : TaskStore × List (String × Nat) :=
  match st.forwarding_tasks.lookup key with
  | some tid =>
    if (st.tasks.status tid).done then (st.tasks, st.forwarding_tasks)
    else (st.tasks.cancel tid, dictDel st.forwarding_tasks key)
  | none => (st.tasks, st.forwarding_tasks)

/-- Body of `cmd_startad`: validate the interval argument when given,
check the payload and the live destination set, cancel a not-done task
already registered under the payload key, then register a fresh
`forward_stored_message` task under that key (dict assignment, so the
key holds exactly the new task). -/
def cmd_startad (st : Forwarder) (msg_id : String) (interval_arg : Option Nat) :
    Forwarder × Reply :=
  let interval := interval_arg.getD st.forward_interval
  if interval_arg.isSome ∧ interval < 60 then (st, .intervalTooShort)
  else if (st.stored_messages.lookup msg_id).isNone then (st, .notFound msg_id)
  else if st.target_chats = ∅ then (st, .noTargets)
  else
    let ts := startadSweep st msg_id
    let spawned := ts.spawn (.forward msg_id .live interval)
    ({ st with
        tasks := spawned.1
        forwarding_tasks := dictSet st.forwarding_tasks msg_id spawned.2 },
      .adStarted msg_id interval)

/-- Body of `cmd_targetedad` with the target list already resolved:
check the payload, the target set and the interval, allocate a campaign
id (against the stored-message keys only), record the campaign, spawn a
`forward_stored_message` task over the frozen target set and assign it
under the key `targeted_<campaign_id>`.  The source performs no
cancellation of a task already registered under that key. -/
def cmd_targetedad (st : Forwarder) (msg_id : String) (targets : Finset Int)
    (interval_arg : Option Nat) (now : Int) (randFallback : List String) :
    Forwarder × Reply :=
  if (st.stored_messages.lookup msg_id).isNone then (st, .notFound msg_id)
  else if targets = ∅ then (st, .noTargets)
  else
    let interval := interval_arg.getD st.forward_interval
    if interval_arg.isSome ∧ interval < 60 then (st, .intervalTooShort)
    else
      match generate_campaign_id (storedKeys st) randFallback with
      | none => (st, .allocExhausted)
      | some campaign_id =>
        let campaigns2 := dictSet st.targeted_campaigns campaign_id
          { msg_id := msg_id, targets := targets, interval := interval,
            start_time := now }
        let spawned := st.tasks.spawn (.forward msg_id (.frozen targets) interval)
        ({ st with
            targeted_campaigns := campaigns2
            tasks := spawned.1
            forwarding_tasks :=
              dictSet st.forwarding_tasks ("targeted_" ++ campaign_id) spawned.2 },
          .campaignStarted campaign_id)

/-- Body of `cmd_removead`: check the payload, then walk the task dict
and, for the entry whose key equals the payload id and whose task is not
done, cancel it and delete the entry (a dict holds at most one entry per
key, so the source loop touches at most one item); finally delete the
payload record. -/
def cmd_removead (st : Forwarder) (msg_id : String) : Forwarder × Reply :=
  if (st.stored_messages.lookup msg_id).isNone then (st, .notFound msg_id)
  else
    let swept := stopSweep st msg_id
    ({ st with
        tasks := swept.1
        forwarding_tasks := swept.2
        stored_messages := dictDel st.stored_messages msg_id },
      .adRemoved msg_id)

/-- Body of `cmd_stoptargetad`: check the campaign record, cancel and
deregister the not-done task under `targeted_<campaign_id>`, delete the
record. -/
def cmd_stoptargetad (st : Forwarder) (campaign_id : String) : Forwarder × Reply :=
  if (st.targeted_campaigns.lookup campaign_id).isNone then (st, .notFound campaign_id)
  else
    let swept := stopSweep st ("targeted_" ++ campaign_id)
    ({ st with
        tasks := swept.1
        forwarding_tasks := swept.2
        targeted_campaigns := dictDel st.targeted_campaigns campaign_id },
      .campaignStopped campaign_id)

/-- Body of `cmd_addtarget` for one already-resolved chat id:
`self.target_chats.add(chat_id)`, an in-place mutation of the live
destination set. -/
def cmd_addtarget (st : Forwarder) (chat_id : Int) : Forwarder × Reply :=
  ({ st with target_chats := insert chat_id st.target_chats }, .targetAdded chat_id)

/-- One pass of the `while True` loop of `forward_stored_message` for the
task `tid`: stop (normal return) when the payload was deleted, otherwise
attempt delivery to every target of the (re-resolved) target reference
and record each outcome into today's analytics bucket under the key
`<msg_id>_<target>`.  `outcome target` is the transport capability:
`none` for a delivered forward, `some reason` for a raised error.  The
iteration order of a Python set is unspecified; the recorded increments
commute, so the sorted order used here yields the same ledger. -/
def forward_iteration (st : Forwarder) (tid : Nat) (today : String)
    (outcome : Int → Option String) : Forwarder :=
  match st.tasks.job tid, st.tasks.status tid with
  | some (.forward m targets _), .running =>
    if (st.stored_messages.lookup m).isNone then
      { st with tasks := st.tasks.finish tid }
    else
      { st with
          analytics :=
            ((st.resolveTargets targets).sort (· ≤ ·)).foldl
              (fun a target =>
                match outcome target with
                | none => a.recordForward today (m ++ "_" ++ toString target)
                | some e => a.recordFailure today (m ++ "_" ++ toString target) e)
              st.analytics }
  | _, _ => st

/-- The part of `_schedule_forward` that runs at the fire time for task
`tid`: if the task was not cancelled, read the stored payload (a deleted
payload raises, is caught, and the task returns having delivered
nothing), otherwise forward once to every target of the stored target
reference and terminate; per-target transport failures are caught inside
the loop, so the attempted destination set is the whole resolved set.
Returns the new state and the set of destinations delivered to. -/
def schedule_forward_fire (st : Forwarder) (tid : Nat) : Forwarder × Finset Int :=
  match st.tasks.job tid, st.tasks.status tid with
  | some (.oneShot m targets _), .running =>
    if (st.stored_messages.lookup m).isNone then
      ({ st with tasks := st.tasks.finish tid }, ∅)
    else
      ({ st with tasks := st.tasks.finish tid }, st.resolveTargets targets)
  | _, _ => (st, ∅)

/-! ## Naive datetime embedded as microseconds on the proleptic
Gregorian timeline -/

/-- Microseconds per day: naive python datetimes have no leap seconds,
so every calendar day is exactly this long and datetime order and
timedelta arithmetic are exact on total microseconds. -/
def usecPerDay : Int := 86400000000

/-- Numeric value of a decimal digit character. -/
def charVal (c : Char) : Nat := c.toNat - 48

/-- Value of a decimal digit string. -/
def digitsToNat (ds : List Char) : Nat :=
  ds.foldl (fun a c => a * 10 + charVal c) 0

/-- Maximal run of leading digits and the remainder, the way the regular
expressions of the source match at the start of the string. -/
def leadingDigits : List Char → List Char × List Char
  | [] => ([], [])
  | c :: cs =>
    if c.isDigit then
      let r := leadingDigits cs
      (c :: r.1, r.2)
    else ([], c :: cs)

/-- Gregorian leap year. -/
def isLeapYear (y : Nat) : Bool :=
  y % 4 = 0 && (y % 100 ≠ 0 || y % 400 = 0)

/-- Length of a month, as `datetime` validates day-of-month. -/
def daysInMonth (y m : Nat) : Nat :=
  if m = 2 then (if isLeapYear y then 29 else 28)
  else if m = 4 ∨ m = 6 ∨ m = 9 ∨ m = 11 then 30
  else 31

/-- Day number of a civil date, day 0 being 1970-01-01 (the standard
era-based computation; every intermediate value is nonnegative for the
years `datetime` accepts, so the integer divisions carry no convention
ambiguity). -/
def daysFromCivil (y : Int) (m d : Nat) : Int :=
  let y2 : Int := if m ≤ 2 then y - 1 else y
  let era : Int := (if 0 ≤ y2 then y2 else y2 - 399) / 400
  let yoe : Int := y2 - era * 400
  let mp : Nat := (m + 9) % 12
  let doy : Nat := (153 * mp + 2) / 5 + d - 1
  let doe : Int := yoe * 365 + yoe / 4 - yoe / 100 + doy
  era * 146097 + doe - 719468

/-- Civil date of a day number, inverse of `daysFromCivil`. -/
def civilFromDays (z0 : Int) : Int × Nat × Nat :=
  let z := z0 + 719468
  let era : Int := (if 0 ≤ z then z else z - 146096) / 146097
  let doe : Nat := (z - era * 146097).toNat
  let yoe : Nat := (doe - doe / 1460 + doe / 36524 - doe / 146096) / 365
  let y : Int := (yoe : Int) + era * 400
  let doy : Nat := doe - (365 * yoe + yoe / 4 - yoe / 100)
  let mp : Nat := (5 * doy + 2) / 153
  let d : Nat := doy - (153 * mp + 2) / 5 + 1
  let m : Nat := if mp < 10 then mp + 3 else mp - 9
  (if m ≤ 2 then y + 1 else y, m, d)

/-- Zero-padded two-digit decimal rendering, as `%m`, `%d` format. -/
def pad2 (n : Nat) : String :=
  if n < 10 then "0" ++ toString n else toString n

/-- Zero-padded four-digit decimal rendering, as `%Y` format. -/
def pad4 (n : Nat) : String :=
  if n < 10 then "000" ++ toString n
  else if n < 100 then "00" ++ toString n
  else if n < 1000 then "0" ++ toString n
  else toString n

/-- `strftime('%Y-%m-%d')` of the day numbered `z`. -/
def formatDay (z : Int) : String :=
  let c := civilFromDays z
  pad4 c.1.toNat ++ "-" ++ pad2 c.2.1 ++ "-" ++ pad2 c.2.2

/-! ## The time expression grammar of `cmd_schedule` -/

/-- Prefix match of the source regular expression
`(\d\x7b1,2\x7d):(\d\x7b2\x7d)`: two digits, a colon and two digits, or
(after the backtracking the shorter first group allows) one digit, a
colon and two digits; trailing characters are ignored as `re.match`
ignores them. -/
def parseHHMM (cs : List Char) : Option (Nat × Nat) :=
  match cs with
  | a :: b :: rest =>
    if a.isDigit then
      if b.isDigit then
        match rest with
        | ':' :: c :: d :: _ =>
          if c.isDigit ∧ d.isDigit then
            some (10 * charVal a + charVal b, 10 * charVal c + charVal d)
          else none
        | _ => none
      else if b = ':' then
        match rest with
        | c :: d :: _ =>
          if c.isDigit ∧ d.isDigit then
            some (charVal a, 10 * charVal c + charVal d)
          else none
        | _ => none
      else none
    else none
  | _ => none

/-- The `%m` field of `strptime`, alternatives `1[0-2]|0[1-9]|[1-9]`: a
committed longest-valid match is equivalent to the backtracking search
because after a two-digit match the shorter alternative leaves a digit
where the following literal separator is required. -/
def parseMonthField : List Char → Option (Nat × List Char)
  | a :: b :: rest =>
    if a.isDigit ∧ b.isDigit ∧ 1 ≤ 10 * charVal a + charVal b ∧
        10 * charVal a + charVal b ≤ 12 then
      some (10 * charVal a + charVal b, rest)
    else if a.isDigit ∧ 1 ≤ charVal a then some (charVal a, b :: rest)
    else none
  | a :: rest =>
    if a.isDigit ∧ 1 ≤ charVal a then some (charVal a, rest) else none
  | [] => none

/-- The `%d` field of `strptime`, alternatives `3[01]|[12]\d|0[1-9]|[1-9]`. -/
def parseDayField : List Char → Option (Nat × List Char)
  | a :: b :: rest =>
    if a.isDigit ∧ b.isDigit ∧ 1 ≤ 10 * charVal a + charVal b ∧
        10 * charVal a + charVal b ≤ 31 then
      some (10 * charVal a + charVal b, rest)
    else if a.isDigit ∧ 1 ≤ charVal a then some (charVal a, b :: rest)
    else none
  | a :: rest =>
    if a.isDigit ∧ 1 ≤ charVal a then some (charVal a, rest) else none
  | [] => none

/-- The `%H` field of `strptime`, alternatives `2[0-3]|[0-1]\d|\d`. -/
def parseHourField : List Char → Option (Nat × List Char)
  | a :: b :: rest =>
    if a.isDigit ∧ b.isDigit ∧ 10 * charVal a + charVal b ≤ 23 then
      some (10 * charVal a + charVal b, rest)
    else if a.isDigit then some (charVal a, b :: rest)
    else none
  | a :: rest => if a.isDigit then some (charVal a, rest) else none
  | [] => none

/-- The `%M` field of `strptime`, alternatives `[0-5]\d|\d`. -/
def parseMinuteField : List Char → Option (Nat × List Char)
  | a :: b :: rest =>
    if a.isDigit ∧ b.isDigit ∧ 10 * charVal a + charVal b ≤ 59 then
      some (10 * charVal a + charVal b, rest)
    else if a.isDigit then some (charVal a, b :: rest)
    else none
  | a :: rest => if a.isDigit then some (charVal a, rest) else none
  | [] => none

/-- Run of one or more whitespace characters, as the format whitespace
of `strptime` matches. -/
def dropSpaceRun : List Char → Option (List Char)
  | c :: cs =>
    if c.isWhitespace then
      match cs with
      | d :: _ => if d.isWhitespace then dropSpaceRun cs else some cs
      | [] => some []
    else none
  | [] => none

/-- `datetime.strptime(time_str, %Y-%m-%d %H:%M)`: four year digits and
the month, day, hour and minute fields separated by the literal
separators (the space of the format matches a whitespace run),
consuming the whole string; `datetime` then rejects year 0 and a day
beyond the month length (the raised `ValueError` is caught by the
source and reported as an invalid time).  The result is absolute
microseconds on the timeline of `daysFromCivil`. -/
def parse_absolute (cs : List Char) : Option Int :=
  match cs with
  | y1 :: y2 :: y3 :: y4 :: '-' :: rest =>
    if y1.isDigit ∧ y2.isDigit ∧ y3.isDigit ∧ y4.isDigit then
      let y := ((charVal y1 * 10 + charVal y2) * 10 + charVal y3) * 10 + charVal y4
      match parseMonthField rest with
      | some (m, '-' :: rest2) =>
        (match (parseDayField rest2).bind
            (fun p => (dropSpaceRun p.2).map (fun r => (p.1, r))) with
        | some (d, rest3) =>
          (match parseHourField rest3 with
          | some (h, ':' :: rest4) =>
            (match parseMinuteField rest4 with
            | some (mi, []) =>
              if 1 ≤ y ∧ d ≤ daysInMonth y m then
                some (daysFromCivil y m d * usecPerDay +
                  ((h * 3600 + mi * 60 : Nat) : Int) * 1000000)
              else none
            | _ => none)
          | _ => none)
        | _ => none)
      | _ => none
    else none
  | _ => none

/-- Time expression evaluation of `cmd_schedule` at the instant `now`
(microseconds): first the relative form, a digit run directly followed
by the character m or h (trailing characters ignored, as the source
regex matches a prefix); then the clock form through `now.replace(...)`,
which raises for an hour above 23 or a minute above 59 (caught as an
invalid time) and else resolves to today at that clock time, or tomorrow
when that instant is strictly before `now`; finally the absolute
`strptime` form. -/
def parse_schedule_time (now : Int) (time_str : String) : Option Int :=
  let cs := time_str.data
  let split := leadingDigits cs
  if split.1 ≠ [] ∧ (split.2.head? = some 'm' ∨ split.2.head? = some 'h') then
    if split.2.head? = some 'm' then
      some (now + (digitsToNat split.1 : Int) * 60000000)
    else
      some (now + (digitsToNat split.1 : Int) * 3600000000)
  else
    match parseHHMM cs with
    | some (h, mi) =>
      if h ≤ 23 ∧ mi ≤ 59 then
        let t := (now - now.emod usecPerDay) +
          ((h * 3600 + mi * 60 : Nat) : Int) * 1000000
        some (if t < now then t + usecPerDay else t)
      else none
    | none => parse_absolute cs

/-- Body of `cmd_schedule`: check the payload, evaluate the time
expression (an unparsable expression is rejected), reject a fire time
strictly before `now`, allocate a schedule id `sched_<id>` (against the
stored-message keys only) and register a `_schedule_forward` task that
captured the live `self.target_chats` object and the fire time. -/
def cmd_schedule (st : Forwarder) (msg_id : String) (time_str : String)
    (now : Int) (randFallback : List String) : Forwarder × Reply :=
  if (st.stored_messages.lookup msg_id).isNone then (st, .notFound msg_id)
  else
    match parse_schedule_time now time_str with
    | none => (st, .invalidTime)
    | some schedule_time =>
      if schedule_time < now then (st, .pastTime)
      else
        match generate_campaign_id (storedKeys st) randFallback with
        | none => (st, .allocExhausted)
        | some cid =>
          let schedule_id := "sched_" ++ cid
          let spawned := st.tasks.spawn (.oneShot msg_id .live schedule_time)
          ({ st with
              tasks := spawned.1
              scheduled_tasks := dictSet st.scheduled_tasks schedule_id spawned.2 },
            .scheduleSet schedule_id)

/-! ## Analytics summaries (`cmd_analytics`) -/

/-- Forward count of one day: the sum of the per-campaign counters in
that day bucket, 0 for an absent day. -/
def day_forwards (a : Analytics) (date : String) : Nat :=
  match a.forwards.lookup date with
  | none => 0
  | some m => (m.map Prod.snd).sum

/-- Failure count of one day: the sum of the lengths of the per-campaign
reason lists, 0 for an absent day. -/
def day_failures (a : Analytics) (date : String) : Nat :=
  match a.failures.lookup date with
  | none => 0
  | some m => (m.map (fun p => p.2.length)).sum

/-- The report computation of `cmd_analytics` over an already-built date
list (oldest first): per-day stats, totals, the success rate guarded
against an empty denominator, and the change between the last two days,
printed only when at least two days were requested and the previous
day registered at least one forward. -/
def analytics_summary (a : Analytics) (date_list : List String) (days : Nat) :
    AnalyticsSummary :=
  let daily := date_list.map (fun d => (d, day_forwards a d, day_failures a d))
  let tf : Nat := (daily.map (fun x => x.2.1)).sum
  let tl : Nat := (daily.map (fun x => x.2.2)).sum
  let rate : ℚ := if 0 < tf + tl then (tf : ℚ) / ((tf : ℚ) + (tl : ℚ)) * 100 else 0
  let change : Option ℚ :=
    if 2 ≤ days ∧ 2 ≤ daily.length then
      match daily.reverse with
      | t :: y :: _ =>
        if 0 < y.2.1 then
          some (((t.2.1 : ℚ) - (y.2.1 : ℚ)) / (y.2.1 : ℚ) * 100)
        else none
      | _ => none
    else none
  { daily := daily, total_forwards := tf, total_failures := tl,
    success_rate := rate, change := change }

/-- The date list of `cmd_analytics`: today and the `days - 1` preceding
calendar days, formatted and reversed to oldest-first order. -/
def analytics_date_list (todayOrd : Int) (days : Nat) : List String :=
  ((List.range days).map (fun i => formatDay (todayOrd - i))).reverse

/-- Body of `cmd_analytics` with the day-count argument already lexed
(`none` for the default of 7) and today given as a day number. -/
def cmd_analytics (st : Forwarder) (days_arg : Option Int) (todayOrd : Int) :
    Forwarder × Reply :=
  let days := days_arg.getD 7
  if days ≤ 0 ∨ 30 < days then (st, .invalidDays)
  else
    (st, .analyticsReport
      (analytics_summary st.analytics (analytics_date_list todayOrd days.toNat)
        days.toNat))

/-! ## The AuthorizationGate of the specification -/

/-- Decision outcomes of the AuthorizationGate as the specification
names them. -/
inductive AuthDecision
  | deny
  | allowBypass
  | denyOffline (notice : Bool)
  | allow
deriving DecidableEq

/-- The ordered authorization rules exactly as the specification states
them (spec section 4.2), written from the words of the spec so that the
decorator of the source can be proved to refine them: non-admin senders
are denied silently; the enable command while disabled is allowed as the
one bypass; anything else while disabled is denied with an offline
notice unless the command is flagged silent; everything else is
allowed. -/
def authorizeSpec (adminSet : Finset Int) (disabled : Bool)
    (isEnableCommand : Bool) (silentFlag : Bool) (senderId : Int) : AuthDecision :=
  if senderId ∉ adminSet then .deny
  else if isEnableCommand && disabled then .allowBypass
  else if disabled then .denyOffline !silentFlag
  else .allow

/-! ## Concrete states used by witnesses and counterexamples -/

/-- Task store with no task yet. -/
def emptyTasks : TaskStore :=
  { next := 0, status := fun _ => .finished, job := fun _ => none }

/-- Ledger with no recorded outcome. -/
def emptyAnalytics : Analytics := { forwards := [], failures := [] }

/-- A small concrete enabled state: one saved payload "1", one
destination 100, one original admin 7, no live task. -/
def baseState : Forwarder :=
  { forwarding_enabled := true
    target_chats := {100}
    forward_interval := 300
    stored_messages := [("1", 0)]
    forwarding_tasks := []
    scheduled_tasks := []
    targeted_campaigns := []
    admins := {7}
    analytics := emptyAnalytics
    tasks := emptyTasks }

/-- Concrete state for C5: admin set is exactly the original admin 7. -/
def baseC5 : Forwarder := baseState

/-- Concrete state for C10: the sole admin is 9, added dynamically (the
original list is `[7]`). -/
def baseC10 : Forwarder := { baseState with admins := {9} }

/-- Number of entries of a task dict registered under the key `k`. -/
def countKey {α : Type} (d : List (String × α)) (k : String) : Nat :=
  (d.filter (fun p => p.1 = k)).length

/-- Result of the first `/targetedad 1 100 60` on `baseState`. -/
def c1FirstStart : Forwarder × Reply :=
  cmd_targetedad baseState "1" {100} (some 60) 0 []

/-- Result of a second, identical `/targetedad` on the state left by
`c1FirstStart`. -/
def c1SecondStart : Forwarder × Reply :=
  cmd_targetedad c1FirstStart.1 "1" {100} (some 60) 0 []

/-- State after `/startad 1 60` on `baseState` (payload-keyed task 0). -/
def c2StartState : Forwarder := (cmd_startad baseState "1" (some 60)).1

/-- State after additionally starting a targeted campaign (task 1 under
key `targeted_2`) forwarding the same payload. -/
def c2WithCampaign : Forwarder :=
  (cmd_targetedad c2StartState "1" {100} (some 60) 0 []).1

/-- State after `/removead 1` on `c2WithCampaign`. -/
def c2AfterRemove : Forwarder := (cmd_removead c2WithCampaign "1").1

/-- Result of `/schedule 1 5m` on `baseState` at a fixed instant. -/
def c6Scheduled : Forwarder × Reply :=
  cmd_schedule baseState "1" "5m" 1700000000123456 []

/-- State after additionally running `/addtarget 200` between the
scheduling and the fire time. -/
def c6Mutated : Forwarder := (cmd_addtarget c6Scheduled.1 200).1

/-- `baseState` with no payload saved yet, the starting point for the
identifier-allocation scenario. -/
def emptyStored : Forwarder := { baseState with stored_messages := [] }

/-- `n` successive `/setad` commands (each saving an opaque message 0). -/
def setadIter : Nat → Forwarder → Forwarder
  | 0, st => st
  | n + 1, st => setadIter n (cmd_setad st 0 []).1

/-! ## Dictionary lemmas -/

/-- Lookup at the head key. -/
theorem lookup_cons_eq {α : Type} (a : String) (b : α) (t : List (String × α)) :
    ((a, b) :: t).lookup a = some b := by
  simp [List.lookup]

/-- Lookup skips a head entry with a different key. -/
theorem lookup_cons_ne {α : Type} {k : String} (p : String × α) (t : List (String × α))
    (h : k ≠ p.1) : (p :: t).lookup k = t.lookup k := by
  obtain ⟨a, b⟩ := p
  simp only [List.lookup, beq_false_of_ne h]

/-- Lookup fails exactly off the key set. -/
theorem lookup_eq_none_iff {α : Type} {d : List (String × α)} {k : String} :
    d.lookup k = none ↔ k ∉ d.map Prod.fst := by
  induction d with
  | nil => simp
  | cons p t ih =>
    obtain ⟨a, b⟩ := p
    by_cases hk : k = a
    · subst hk
      rw [lookup_cons_eq]
      simp
    · rw [lookup_cons_ne (a, b) t hk]
      simp only [List.map_cons, List.mem_cons, ih]
      constructor
      · intro h hmem
        rcases hmem with h1 | h2
        · exact hk h1
        · exact h h2
      · intro h hmem
        exact h (Or.inr hmem)

/-- Lookup after the in-place update branch of `dictSet`. -/
theorem lookup_map_self {α : Type} (d : List (String × α)) (k : String) (v : α) :
    (d.map (fun p => if p.1 = k then (k, v) else p)).lookup k =
      if (d.lookup k).isSome then some v else none := by
  induction d with
  | nil => simp
  | cons p t ih =>
    obtain ⟨a, b⟩ := p
    rw [List.map_cons]
    by_cases hk : a = k
    · subst hk
      rw [show (if a = a then (a, v) else (a, b)) = (a, v) from if_pos rfl,
        lookup_cons_eq, lookup_cons_eq]
      simp
    · simp only [if_neg hk]
      rw [lookup_cons_ne (a, b) _ (fun h => hk h.symm),
        lookup_cons_ne (a, b) t (fun h => hk h.symm), ih]

/-- The in-place update branch of `dictSet` does not touch other keys. -/
theorem lookup_map_ne {α : Type} (d : List (String × α)) (k k2 : String) (v : α)
    (h : k2 ≠ k) :
    (d.map (fun p => if p.1 = k then (k, v) else p)).lookup k2 = d.lookup k2 := by
  induction d with
  | nil => simp
  | cons p t ih =>
    obtain ⟨a, b⟩ := p
    rw [List.map_cons]
    by_cases hk : a = k
    · subst hk
      rw [show (if a = a then (a, v) else (a, b)) = (a, v) from if_pos rfl,
        lookup_cons_ne (a, v) _ h, lookup_cons_ne (a, b) t h, ih]
    · simp only [if_neg hk]
      by_cases he : k2 = a
      · subst he
        rw [lookup_cons_eq, lookup_cons_eq]
      · rw [lookup_cons_ne (a, b) _ he, lookup_cons_ne (a, b) t he, ih]

/-- Lookup of a freshly appended binding. -/
theorem lookup_append_single_self {α : Type} (d : List (String × α)) (k : String) (v : α)
    (h : d.lookup k = none) : (d ++ [(k, v)]).lookup k = some v := by
  induction d with
  | nil => simp [lookup_cons_eq]
  | cons p t ih =>
    obtain ⟨a, b⟩ := p
    by_cases hk : k = a
    · subst hk
      rw [lookup_cons_eq] at h
      exact absurd h (by simp)
    · rw [lookup_cons_ne (a, b) t hk] at h
      rw [List.cons_append, lookup_cons_ne (a, b) _ hk, ih h]

/-- An appended binding does not shadow other keys. -/
theorem lookup_append_single_ne {α : Type} (d : List (String × α)) (k k2 : String) (v : α)
    (h : k2 ≠ k) : (d ++ [(k, v)]).lookup k2 = d.lookup k2 := by
  induction d with
  | nil => simp [lookup_cons_ne (k, v) [] h]
  | cons p t ih =>
    obtain ⟨a, b⟩ := p
    by_cases hk : k2 = a
    · subst hk
      rw [List.cons_append, lookup_cons_eq, lookup_cons_eq]
    · rw [List.cons_append, lookup_cons_ne (a, b) _ hk, lookup_cons_ne (a, b) t hk, ih]

/-- Dict assignment stores the value under the key. -/
theorem lookup_dictSet_self {α : Type} (d : List (String × α)) (k : String) (v : α) :
    (dictSet d k v).lookup k = some v := by
  rw [dictSet]
  by_cases h : (d.lookup k).isSome
  · rw [if_pos h, lookup_map_self, if_pos h]
  · rw [if_neg h, lookup_append_single_self d k v (Option.not_isSome_iff_eq_none.mp h)]

/-- Dict assignment leaves other keys untouched. -/
theorem lookup_dictSet_ne {α : Type} (d : List (String × α)) (k k2 : String) (v : α)
    (h : k2 ≠ k) : (dictSet d k v).lookup k2 = d.lookup k2 := by
  rw [dictSet]
  by_cases hs : (d.lookup k).isSome
  · rw [if_pos hs, lookup_map_ne d k k2 v h]
  · rw [if_neg hs, lookup_append_single_ne d k k2 v h]

/-- `dictDel` drops a head entry with the deleted key. -/
theorem dictDel_cons_eq {α : Type} (a : String) (b : α) (t : List (String × α)) :
    dictDel ((a, b) :: t) a = dictDel t a := by
  rw [dictDel, dictDel, List.filter_cons, if_neg (by simp)]

/-- `dictDel` keeps a head entry with another key. -/
theorem dictDel_cons_ne {α : Type} {k : String} (p : String × α) (t : List (String × α))
    (h : p.1 ≠ k) : dictDel (p :: t) k = p :: dictDel t k := by
  rw [dictDel, dictDel, List.filter_cons, if_pos (by simp [h])]

/-- Deletion removes the key. -/
theorem lookup_dictDel_self {α : Type} (d : List (String × α)) (k : String) :
    (dictDel d k).lookup k = none := by
  induction d with
  | nil => rw [dictDel]; simp
  | cons p t ih =>
    obtain ⟨a, b⟩ := p
    by_cases hk : a = k
    · subst hk
      rw [dictDel_cons_eq, ih]
    · rw [dictDel_cons_ne (a, b) t hk, lookup_cons_ne (a, b) _ (fun h => hk h.symm), ih]

/-- Deletion leaves other keys untouched. -/
theorem lookup_dictDel_ne {α : Type} (d : List (String × α)) (k k2 : String)
    (h : k2 ≠ k) : (dictDel d k).lookup k2 = d.lookup k2 := by
  induction d with
  | nil => rw [dictDel]; simp
  | cons p t ih =>
    obtain ⟨a, b⟩ := p
    by_cases hk : a = k
    · subst hk
      rw [dictDel_cons_eq, ih, lookup_cons_ne (a, b) t h]
    · rw [dictDel_cons_ne (a, b) t hk]
      by_cases he : k2 = a
      · subst he
        rw [lookup_cons_eq, lookup_cons_eq]
      · rw [lookup_cons_ne (a, b) _ he, lookup_cons_ne (a, b) t he, ih]

/-- `countKey` is the key count of the key list. -/
theorem countKey_eq_count {α : Type} (d : List (String × α)) (k : String) :
    countKey d k = (d.map Prod.fst).count k := by
  rw [countKey, List.count, List.countP_map, ← List.countP_eq_length_filter]
  apply List.countP_congr
  intro p _
  by_cases h : p.1 = k <;> simp [h, Function.comp]

/-- A successful lookup witnesses key membership. -/
theorem lookup_isSome_mem_keys {α : Type} {d : List (String × α)} {k : String}
    (h : (d.lookup k).isSome) : k ∈ d.map Prod.fst := by
  by_contra hmem
  rw [← lookup_eq_none_iff] at hmem
  rw [hmem] at h
  simp at h

/-- Key list of a dict after assignment. -/
theorem map_fst_dictSet {α : Type} (d : List (String × α)) (k : String) (v : α) :
    (dictSet d k v).map Prod.fst =
      if (d.lookup k).isSome then d.map Prod.fst else d.map Prod.fst ++ [k] := by
  rw [dictSet]
  by_cases h : (d.lookup k).isSome
  · rw [if_pos h, if_pos h, List.map_map]
    apply List.map_congr_left
    intro p _
    by_cases hk : p.1 = k
    · simp [Function.comp, hk]
    · simp [Function.comp, hk]
  · rw [if_neg h, if_neg h, List.map_append]
    rfl

/-- Dict assignment preserves distinctness of keys. -/
theorem nodup_keys_dictSet {α : Type} (d : List (String × α)) (k : String) (v : α)
    (h : (d.map Prod.fst).Nodup) : ((dictSet d k v).map Prod.fst).Nodup := by
  rw [map_fst_dictSet]
  by_cases hs : (d.lookup k).isSome
  · rw [if_pos hs]; exact h
  · rw [if_neg hs]
    have hk : k ∉ d.map Prod.fst :=
      lookup_eq_none_iff.mp (Option.not_isSome_iff_eq_none.mp hs)
    simp [List.nodup_append, h, hk]

/-- After an assignment to a key-distinct dict, exactly one entry is
registered under the key. -/
theorem countKey_dictSet_self {α : Type} (d : List (String × α)) (k : String) (v : α)
    (h : (d.map Prod.fst).Nodup) : countKey (dictSet d k v) k = 1 := by
  rw [countKey_eq_count]
  apply List.count_eq_one_of_mem (nodup_keys_dictSet d k v h)
  exact lookup_isSome_mem_keys (by rw [lookup_dictSet_self]; rfl)

/-! ## Task store lemmas -/

/-- `spawn` allocates the next id. -/
theorem spawn_snd (ts : TaskStore) (j : Job) : (ts.spawn j).2 = ts.next := rfl

/-- `spawn` advances the allocation counter. -/
theorem spawn_next (ts : TaskStore) (j : Job) : (ts.spawn j).1.next = ts.next + 1 := rfl

/-- Status table after `spawn`. -/
theorem spawn_status (ts : TaskStore) (j : Job) (n : Nat) :
    (ts.spawn j).1.status n = if n = ts.next then .running else ts.status n := rfl

/-- Job table after `spawn`. -/
theorem spawn_job (ts : TaskStore) (j : Job) (n : Nat) :
    (ts.spawn j).1.job n = if n = ts.next then some j else ts.job n := rfl

/-- `cancel` does not allocate. -/
theorem cancel_next (ts : TaskStore) (t : Nat) : (ts.cancel t).next = ts.next := rfl

/-- `cancel` keeps every job record. -/
theorem cancel_job (ts : TaskStore) (t : Nat) : (ts.cancel t).job = ts.job := rfl

/-- Status table after `cancel`. -/
theorem cancel_status (ts : TaskStore) (t n : Nat) :
    (ts.cancel t).status n =
      if n = t then (if ts.status t = .running then .cancelled else ts.status t)
      else ts.status n := rfl

/-- Status table after `finish`. -/
theorem finish_status (ts : TaskStore) (t n : Nat) :
    (ts.finish t).status n =
      if n = t then (if ts.status t = .running then .finished else ts.status t)
      else ts.status n := rfl

/-- `finish` does not allocate. -/
theorem finish_next (ts : TaskStore) (t : Nat) : (ts.finish t).next = ts.next := rfl

/-! ## Sweep and command evaluation lemmas -/

/-- The startad sweep never allocates. -/
theorem startadSweep_next (st : Forwarder) (m : String) :
    (startadSweep st m).next = st.tasks.next := by
  rw [startadSweep]
  cases st.forwarding_tasks.lookup m with
  | none => rfl
  | some tid =>
    show (if (st.tasks.status tid).done then st.tasks else st.tasks.cancel tid).next =
      st.tasks.next
    by_cases h : (st.tasks.status tid).done
    · rw [if_pos h]
    · rw [if_neg h, cancel_next]

/-- With a running task registered under the key, the startad sweep
cancels it. -/
theorem startadSweep_of_running (st : Forwarder) (m : String) (tid : Nat)
    (hl : st.forwarding_tasks.lookup m = some tid)
    (hr : st.tasks.status tid = TaskStatus.running) :
    startadSweep st m = st.tasks.cancel tid := by
  rw [startadSweep, hl]
  show (if (st.tasks.status tid).done then st.tasks else st.tasks.cancel tid) =
    st.tasks.cancel tid
  rw [if_neg (by rw [hr]; decide)]

/-- With a running task registered under the key, the stop sweep cancels
it and drops the entry. -/
theorem stopSweep_of_running (st : Forwarder) (key : String) (tid : Nat)
    (hl : st.forwarding_tasks.lookup key = some tid)
    (hr : st.tasks.status tid = TaskStatus.running) :
    stopSweep st key = (st.tasks.cancel tid, dictDel st.forwarding_tasks key) := by
  rw [stopSweep, hl]
  show (if (st.tasks.status tid).done then (st.tasks, st.forwarding_tasks)
      else (st.tasks.cancel tid, dictDel st.forwarding_tasks key)) =
    (st.tasks.cancel tid, dictDel st.forwarding_tasks key)
  rw [if_neg (by rw [hr]; decide)]

/-- Evaluation of a successful `cmd_startad`. -/
theorem cmd_startad_eq (st : Forwarder) (m : String) (i : Nat)
    (hi : 60 ≤ i)
    (hm : (st.stored_messages.lookup m).isSome)
    (ht : st.target_chats ≠ ∅) :
    cmd_startad st m (some i) =
      ({ st with
          tasks := ((startadSweep st m).spawn (.forward m .live i)).1
          forwarding_tasks :=
            dictSet st.forwarding_tasks m (startadSweep st m).next },
        Reply.adStarted m i) := by
  obtain ⟨v, hv⟩ := Option.isSome_iff_exists.mp hm
  rw [cmd_startad]
  rw [if_neg (show ¬((some i : Option Nat).isSome ∧
      (some i).getD st.forward_interval < 60) from
    fun h => absurd h.2 (by simpa using Nat.not_lt.mpr hi))]
  rw [if_neg (show ¬((st.stored_messages.lookup m).isNone = true) by
    rw [hv]; simp)]
  rw [if_neg ht]
  rfl

/-- Evaluation of a successful `cmd_removead`. -/
theorem cmd_removead_eq (st : Forwarder) (m : String)
    (hm : (st.stored_messages.lookup m).isSome) :
    cmd_removead st m =
      ({ st with
          tasks := (stopSweep st m).1
          forwarding_tasks := (stopSweep st m).2
          stored_messages := dictDel st.stored_messages m },
        Reply.adRemoved m) := by
  obtain ⟨v, hv⟩ := Option.isSome_iff_exists.mp hm
  rw [cmd_removead]
  rw [if_neg (show ¬((st.stored_messages.lookup m).isNone = true) by
    rw [hv]; simp)]

/-- Inversion of a successful `cmd_targetedad`. -/
theorem cmd_targetedad_success_inv (st : Forwarder) (m : String) (tgts : Finset Int)
    (iv : Nat) (now : Int) (rand : List String) (st3 : Forwarder) (cid : String)
    (h : cmd_targetedad st m tgts (some iv) now rand = (st3, Reply.campaignStarted cid)) :
    generate_campaign_id (storedKeys st) rand = some cid ∧
      st3 = { st with
        targeted_campaigns := dictSet st.targeted_campaigns cid
          { msg_id := m, targets := tgts, interval := iv, start_time := now }
        tasks := (st.tasks.spawn (.forward m (.frozen tgts) iv)).1
        forwarding_tasks :=
          dictSet st.forwarding_tasks ("targeted_" ++ cid) st.tasks.next } := by
  rw [cmd_targetedad] at h
  split at h
  · simp at h
  · split at h
    · simp at h
    · split at h
      · simp only [] at h
        split at h <;> simp at h
      · rename_i cid2 hgen
        simp only [] at h
        split at h
        · simp at h
        · rw [Prod.mk.injEq] at h
          obtain ⟨h1, h2⟩ := h
          cases h2
          exact ⟨hgen, h1.symm⟩

/-- Inversion of a successful `cmd_schedule`. -/
theorem cmd_schedule_success_inv (st : Forwarder) (m tstr : String) (now : Int)
    (rand : List String) (st1 : Forwarder) (sid : String)
    (h : cmd_schedule st m tstr now rand = (st1, Reply.scheduleSet sid)) :
    ∃ t cid, parse_schedule_time now tstr = some t ∧ ¬t < now ∧
      generate_campaign_id (storedKeys st) rand = some cid ∧
      sid = "sched_" ++ cid ∧
      st1 = { st with
        tasks := (st.tasks.spawn (.oneShot m .live t)).1
        scheduled_tasks :=
          dictSet st.scheduled_tasks ("sched_" ++ cid) st.tasks.next } := by
  rw [cmd_schedule] at h
  split at h
  · simp at h
  · split at h
    · simp at h
    · rename_i t hpt
      split at h
      · simp at h
      · rename_i hlt
        split at h
        · simp at h
        · rename_i cid hgen
          simp only [] at h
          rw [Prod.mk.injEq] at h
          obtain ⟨h1, h2⟩ := h
          injection h2 with hsid
          exact ⟨t, cid, hpt, hlt, hgen, hsid.symm, h1.symm⟩

/-! ## Claim C5: last-admin protection -/

/-- C5: when the admin set is exactly one originally-configured admin
`x`, `cmd_removeadmin` on `x` answers with the last-admin-protection
error and leaves the whole state, in particular the admin set,
unchanged. -/
theorem C5_last_admin_protected (cfg : List Int) (st : Forwarder) (x : Int)
    (hx : x ∈ cfg) (hA : st.admins = {x}) :
    cmd_removeadmin cfg st x = (st, Reply.cannotRemoveOriginalAdmin) ∧
      (cmd_removeadmin cfg st x).1.admins = st.admins := by
  have hcard : st.admins.card ≤ 1 := by rw [hA]; simp
  rw [cmd_removeadmin, if_pos ⟨hx, hcard⟩]
  exact ⟨rfl, rfl⟩

/-- Closed instance of C5 at a concrete state. -/
theorem C5_last_admin_protected_witness :
    cmd_removeadmin [7] baseC5 7 = (baseC5, Reply.cannotRemoveOriginalAdmin) ∧
      (cmd_removeadmin [7] baseC5 7).1.admins = baseC5.admins :=
  C5_last_admin_protected [7] baseC5 7 (by decide) rfl

/-! ## Claim C10: removing the last dynamic admin empties the set -/

/-- C10: when the single remaining admin `y` is not originally
configured, `cmd_removeadmin` on `y` succeeds and leaves the admin set
empty, and afterwards every command from every sender is dropped
silently: the wrapped handler never runs, no reply is produced and the
state does not change. -/
theorem C10_remove_last_dynamic_admin (cfg : List Int) (st : Forwarder) (y : Int)
    (hy : y ∉ cfg) (hA : st.admins = {y}) :
    (cmd_removeadmin cfg st y).2 = Reply.adminRemoved y ∧
      (cmd_removeadmin cfg st y).1.admins = ∅ ∧
      ∀ (funcName : String) (handler : Forwarder → Event → Forwarder × List Reply)
        (ev : Event),
        admin_only funcName handler (cmd_removeadmin cfg st y).1 ev =
          ((cmd_removeadmin cfg st y).1, []) := by
  have hmem : y ∈ st.admins := by rw [hA]; simp
  have hres : cmd_removeadmin cfg st y =
      ({ st with admins := st.admins.erase y }, Reply.adminRemoved y) := by
    rw [cmd_removeadmin, if_neg (fun h => hy h.1), if_neg (by simp [hmem])]
  have hempty : (cmd_removeadmin cfg st y).1.admins = ∅ := by
    rw [hres, hA]; simp
  refine ⟨by rw [hres], hempty, ?_⟩
  intro funcName handler ev
  rw [admin_only]
  cases hcn : commandNameOf ev.text with
  | none => rfl
  | some cn =>
    cases hs : ev.sender with
    | none => rfl
    | some sender =>
      have hnot : sender ∉ (cmd_removeadmin cfg st y).1.admins := by
        rw [hempty]; exact Finset.not_mem_empty sender
      exact if_pos hnot

/-- Closed instance of C10 at a concrete state: the dynamically added
admin 9 removes itself, the set becomes empty, and a later command from
the original admin 7 is silently dropped. -/
theorem C10_remove_last_dynamic_admin_witness :
    (cmd_removeadmin [7] baseC10 9).2 = Reply.adminRemoved 9 ∧
      (cmd_removeadmin [7] baseC10 9).1.admins = ∅ ∧
      admin_only "cmd_status" (fun st _ => (st, []))
          (cmd_removeadmin [7] baseC10 9).1 ⟨some 7, "/status"⟩ =
        ((cmd_removeadmin [7] baseC10 9).1, []) := by
  have h := C10_remove_last_dynamic_admin [7] baseC10 9 (by decide) rfl
  exact ⟨h.1, h.2.1, h.2.2 "cmd_status" (fun st _ => (st, [])) ⟨some 7, "/status"⟩⟩

/-! ## Claim C1: task replacement under a key -/

/-- C1 (amended): for payload-keyed recurring jobs the at-most-one-task
discipline holds: a second `cmd_startad` under the same payload key
cancels the first task (id `st.tasks.next`) and leaves the new task (id
`st.tasks.next + 1`) as the single running task registered under the
key.  For targeted-campaign keys the dict assignment replaces the entry
but `cmd_targetedad` cancels nothing: every pre-existing task keeps its
status. -/
theorem C1_task_replacement (st : Forwarder) (m : String) (i1 i2 : Nat)
    (h1 : 60 ≤ i1) (h2 : 60 ≤ i2)
    (hm : (st.stored_messages.lookup m).isSome)
    (ht : st.target_chats ≠ ∅)
    (hnd : (st.forwarding_tasks.map Prod.fst).Nodup) :
    ((cmd_startad (cmd_startad st m (some i1)).1 m (some i2)).1.forwarding_tasks.lookup m
        = some (st.tasks.next + 1)) ∧
    countKey (cmd_startad (cmd_startad st m (some i1)).1 m (some i2)).1.forwarding_tasks m
        = 1 ∧
    ((cmd_startad (cmd_startad st m (some i1)).1 m (some i2)).1.tasks.status
        (st.tasks.next + 1) = TaskStatus.running) ∧
    ((cmd_startad (cmd_startad st m (some i1)).1 m (some i2)).1.tasks.status
        st.tasks.next = TaskStatus.cancelled) ∧
    (∀ (tgts : Finset Int) (iv : Nat) (now : Int) (rand : List String)
        (st3 : Forwarder) (cid : String),
      cmd_targetedad st m tgts (some iv) now rand = (st3, Reply.campaignStarted cid) →
      ∀ tid, tid ≠ st.tasks.next → st3.tasks.status tid = st.tasks.status tid) := by
  have e1 := cmd_startad_eq st m i1 h1 hm ht
  have hft1 : (cmd_startad st m (some i1)).1.forwarding_tasks =
      dictSet st.forwarding_tasks m st.tasks.next := by
    rw [e1]
    show dictSet st.forwarding_tasks m (startadSweep st m).next = _
    rw [startadSweep_next]
  have htk1 : (cmd_startad st m (some i1)).1.tasks =
      ((startadSweep st m).spawn (.forward m .live i1)).1 := by rw [e1]
  have hst1 : (cmd_startad st m (some i1)).1.stored_messages = st.stored_messages := by
    rw [e1]
  have htc1 : (cmd_startad st m (some i1)).1.target_chats = st.target_chats := by
    rw [e1]
  have hnext1 : (cmd_startad st m (some i1)).1.tasks.next = st.tasks.next + 1 := by
    rw [htk1, spawn_next, startadSweep_next]
  have hstat1 : (cmd_startad st m (some i1)).1.tasks.status st.tasks.next =
      TaskStatus.running := by
    rw [htk1, spawn_status, startadSweep_next, if_pos rfl]
  have e2 := cmd_startad_eq (cmd_startad st m (some i1)).1 m i2 h2
    (by rw [hst1]; exact hm) (by rw [htc1]; exact ht)
  have hlook1 : (cmd_startad st m (some i1)).1.forwarding_tasks.lookup m =
      some st.tasks.next := by
    rw [hft1, lookup_dictSet_self]
  have hsw2 : startadSweep (cmd_startad st m (some i1)).1 m =
      (cmd_startad st m (some i1)).1.tasks.cancel st.tasks.next :=
    startadSweep_of_running _ m st.tasks.next hlook1 hstat1
  have hft2 : (cmd_startad (cmd_startad st m (some i1)).1 m (some i2)).1.forwarding_tasks =
      dictSet (dictSet st.forwarding_tasks m st.tasks.next) m (st.tasks.next + 1) := by
    rw [e2]
    show dictSet (cmd_startad st m (some i1)).1.forwarding_tasks m
        (startadSweep (cmd_startad st m (some i1)).1 m).next = _
    rw [startadSweep_next, hnext1, hft1]
  have htk2 : (cmd_startad (cmd_startad st m (some i1)).1 m (some i2)).1.tasks =
      ((startadSweep (cmd_startad st m (some i1)).1 m).spawn (.forward m .live i2)).1 := by
    rw [e2]
  refine ⟨?_, ?_, ?_, ?_, ?_⟩
  · rw [hft2, lookup_dictSet_self]
  · rw [hft2]
    exact countKey_dictSet_self _ m _ (nodup_keys_dictSet _ m _ hnd)
  · rw [htk2, spawn_status, hsw2, cancel_next, hnext1, if_pos rfl]
  · rw [htk2, spawn_status, hsw2, cancel_next, hnext1,
      if_neg (by omega), cancel_status, if_pos rfl, hstat1, if_pos rfl]
  · intro tgts iv now rand st3 cid hT tid htid
    obtain ⟨_, hst3⟩ := cmd_targetedad_success_inv st m tgts iv now rand st3 cid hT
    rw [hst3]
    show ((st.tasks.spawn (.forward m (.frozen tgts) iv)).1).status tid = _
    rw [spawn_status, if_neg htid]

/-- Closed instance of C1 at `baseState`: two `/startad 1` runs leave
task 1 running registered under the key and task 0 cancelled; a
`/targetedad` run cancels no pre-existing task. -/
theorem C1_task_replacement_witness :
    ((cmd_startad (cmd_startad baseState "1" (some 60)).1 "1" (some 90)).1.forwarding_tasks.lookup "1"
        = some 1) ∧
    countKey (cmd_startad (cmd_startad baseState "1" (some 60)).1 "1" (some 90)).1.forwarding_tasks "1"
        = 1 ∧
    ((cmd_startad (cmd_startad baseState "1" (some 60)).1 "1" (some 90)).1.tasks.status 1
        = TaskStatus.running) ∧
    ((cmd_startad (cmd_startad baseState "1" (some 60)).1 "1" (some 90)).1.tasks.status 0
        = TaskStatus.cancelled) ∧
    (∀ (tgts : Finset Int) (iv : Nat) (now : Int) (rand : List String)
        (st3 : Forwarder) (cid : String),
      cmd_targetedad baseState "1" tgts (some iv) now rand = (st3, Reply.campaignStarted cid) →
      ∀ tid, tid ≠ 0 → st3.tasks.status tid = baseState.tasks.status tid) :=
  C1_task_replacement baseState "1" 60 90 (by decide) (by decide) (by decide)
    (by decide) (by decide)

/-- C1 as frozen is false for targeted-campaign keys: with one payload
"1" saved, two identical `/targetedad` invocations both allocate the
campaign id "2"; the second replaces the registry entry under the key
`targeted_2` with the new task 1, but the first task 0 is never
cancelled: it is still running, merely unregistered. -/
theorem C1_counterexample :
    c1FirstStart.2 = Reply.campaignStarted "2" ∧
    c1SecondStart.2 = Reply.campaignStarted "2" ∧
    c1SecondStart.1.forwarding_tasks.lookup "targeted_2" = some 1 ∧
    c1SecondStart.1.tasks.status 0 ≠ TaskStatus.cancelled ∧
    c1SecondStart.1.tasks.status 0 = TaskStatus.running := by
  refine ⟨rfl, rfl, by decide, by decide, rfl⟩

/-! ## Claim C2: payload removal cascade -/

/-- C2 (amended): `cmd_removead` cancels and deregisters the task keyed
by the payload id before deleting the record, leaves every other
registry entry and task status untouched, and a targeted-campaign task
forwarding the same payload is not cancelled by the removal: it
terminates on its own at the next loop iteration, when
`forward_stored_message` observes the missing payload. -/
theorem C2_removead_cascade (st : Forwarder) (m : String) (tid : Nat)
    (hm : (st.stored_messages.lookup m).isSome)
    (hreg : st.forwarding_tasks.lookup m = some tid)
    (hrun : st.tasks.status tid = TaskStatus.running) :
    ((cmd_removead st m).1.stored_messages.lookup m = none) ∧
    ((cmd_removead st m).1.tasks.status tid = TaskStatus.cancelled) ∧
    ((cmd_removead st m).1.forwarding_tasks.lookup m = none) ∧
    (∀ (k : String) (tid2 : Nat), k ≠ m → tid2 ≠ tid →
      st.forwarding_tasks.lookup k = some tid2 →
      (cmd_removead st m).1.forwarding_tasks.lookup k = some tid2 ∧
        (cmd_removead st m).1.tasks.status tid2 = st.tasks.status tid2) ∧
    (∀ (tid3 : Nat) (targets : TargetsRef) (iv : Nat) (today : String)
        (outcome : Int → Option String),
      (cmd_removead st m).1.tasks.job tid3 = some (Job.forward m targets iv) →
      (cmd_removead st m).1.tasks.status tid3 = TaskStatus.running →
      (forward_iteration (cmd_removead st m).1 tid3 today outcome).tasks.status tid3 =
        TaskStatus.finished) := by
  have e := cmd_removead_eq st m hm
  have hsw : stopSweep st m = (st.tasks.cancel tid, dictDel st.forwarding_tasks m) :=
    stopSweep_of_running st m tid hreg hrun
  have hstored : (cmd_removead st m).1.stored_messages = dictDel st.stored_messages m := by
    rw [e]
  have htasks : (cmd_removead st m).1.tasks = st.tasks.cancel tid := by
    rw [e]
    show (stopSweep st m).1 = _
    rw [hsw]
  have hft : (cmd_removead st m).1.forwarding_tasks = dictDel st.forwarding_tasks m := by
    rw [e]
    show (stopSweep st m).2 = _
    rw [hsw]
  refine ⟨?_, ?_, ?_, ?_, ?_⟩
  · rw [hstored, lookup_dictDel_self]
  · rw [htasks, cancel_status, if_pos rfl, hrun, if_pos rfl]
  · rw [hft, lookup_dictDel_self]
  · intro k tid2 hk htid2 hlk
    constructor
    · rw [hft, lookup_dictDel_ne _ _ _ hk, hlk]
    · rw [htasks, cancel_status, if_neg htid2]
  · intro tid3 targets iv today outcome hjob hrun3
    rw [forward_iteration]
    simp only [hjob, hrun3]
    rw [if_pos (by rw [hstored, lookup_dictDel_self]; rfl)]
    show ((cmd_removead st m).1.tasks.finish tid3).status tid3 = _
    rw [finish_status, if_pos rfl, hrun3, if_pos rfl]

/-- Closed instance of C2 at `c2StartState` (payload "1" with running
task 0 registered under key "1"). -/
theorem C2_removead_cascade_witness :
    ((cmd_removead c2StartState "1").1.stored_messages.lookup "1" = none) ∧
    ((cmd_removead c2StartState "1").1.tasks.status 0 = TaskStatus.cancelled) ∧
    ((cmd_removead c2StartState "1").1.forwarding_tasks.lookup "1" = none) ∧
    (∀ (k : String) (tid2 : Nat), k ≠ "1" → tid2 ≠ 0 →
      c2StartState.forwarding_tasks.lookup k = some tid2 →
      (cmd_removead c2StartState "1").1.forwarding_tasks.lookup k = some tid2 ∧
        (cmd_removead c2StartState "1").1.tasks.status tid2 =
          c2StartState.tasks.status tid2) ∧
    (∀ (tid3 : Nat) (targets : TargetsRef) (iv : Nat) (today : String)
        (outcome : Int → Option String),
      (cmd_removead c2StartState "1").1.tasks.job tid3 =
        some (Job.forward "1" targets iv) →
      (cmd_removead c2StartState "1").1.tasks.status tid3 = TaskStatus.running →
      (forward_iteration (cmd_removead c2StartState "1").1 tid3 today outcome).tasks.status
        tid3 = TaskStatus.finished) :=
  C2_removead_cascade c2StartState "1" 0 (by decide) (by decide) rfl

/-- C2 as frozen is false at a concrete input: with a recurring task and
a targeted campaign both forwarding payload "1", `/removead 1` cancels
only the payload-keyed task 0; the targeted task 1 is still live and
references the removed payload immediately after the command returns. -/
theorem C2_counterexample :
    c2AfterRemove.stored_messages.lookup "1" = none ∧
    c2AfterRemove.tasks.status 0 = TaskStatus.cancelled ∧
    c2AfterRemove.liveTasksReferencing "1" = [("targeted_2", 1)] := by
  refine ⟨by decide, rfl, by decide⟩

/-! ## Claim C3: the authorization gate refines the ordered spec rules -/

/-- C3: on every invocation with a determined sender and command name,
the `admin_only` decorator behaves exactly as the ordered rules of the
specification prescribe: a deny is silent (no reply, handler not run),
the enable-command bypass runs the handler, the offline deny replies
with the notice unless the command is flagged silent, and an allow runs
the handler.  The enable command is `/start` (by handler name or by
typed command), the silent flag is a `/silent` name prefix, and
`Disabled` is the negation of `forwarding_enabled`. -/
theorem C3_gate_refines_spec (funcName : String)
    (handler : Forwarder → Event → Forwarder × List Reply)
    (st : Forwarder) (ev : Event) (sender : Int) (cn : String)
    (hs : ev.sender = some sender) (hc : commandNameOf ev.text = some cn) :
    admin_only funcName handler st ev =
      match authorizeSpec st.admins (!st.forwarding_enabled)
          (decide (funcName = "cmd_start") || decide (cn = "/start"))
          (pyStartsWith cn.data "/silent".data) sender with
      | .deny => (st, [])
      | .allowBypass => handler st ev
      | .denyOffline notice => (st, if notice then [Reply.offlineNotice] else [])
      | .allow => handler st ev := by
  rw [admin_only, hc, hs, authorizeSpec]
  dsimp only
  by_cases hmem : sender ∈ st.admins
  · rw [if_neg (not_not_intro hmem), if_neg (not_not_intro hmem)]
    cases hen : st.forwarding_enabled
    · cases hstart : (decide (funcName = "cmd_start") || decide (cn = "/start"))
      · simp only [hen, hstart, Bool.false_and, Bool.not_false, Bool.and_true,
          Bool.false_eq_true, if_false, if_true, Bool.and_false]
        cases hsil : pyStartsWith cn.data "/silent".data <;> simp [hsil]
      · simp [hen, hstart]
    · simp [hen]
  · rw [if_pos hmem, if_pos hmem]

/-- Closed instance of C3: a non-admin sender 5 is denied silently on a
concrete state and event. -/
theorem C3_gate_refines_spec_witness :
    admin_only "cmd_status" (fun st _ => (st, [Reply.usageError])) baseState
        ⟨some 5, "/status"⟩ =
      match authorizeSpec baseState.admins (!baseState.forwarding_enabled)
          (decide ("cmd_status" = "cmd_start") || decide ("/status" = "/start"))
          (pyStartsWith "/status".data "/silent".data) 5 with
      | .deny => (baseState, [])
      | .allowBypass => (fun (st : Forwarder) (_ : Event) => (st, [Reply.usageError]))
          baseState ⟨some 5, "/status"⟩
      | .denyOffline notice => (baseState, if notice then [Reply.offlineNotice] else [])
      | .allow => (fun (st : Forwarder) (_ : Event) => (st, [Reply.usageError]))
          baseState ⟨some 5, "/status"⟩ :=
  C3_gate_refines_spec "cmd_status" (fun st _ => (st, [Reply.usageError])) baseState
    ⟨some 5, "/status"⟩ 5 "/status" rfl (by decide)

/-! ## Claim C4: no mutation while disabled -/

/-- C4: while the lifecycle flag is off, any wrapped command whose
handler is not `cmd_start` and whose typed command is not `/start`
leaves the entire shared state unchanged, whatever the handler would
have done: payloads, destinations, admins, campaigns, interval, task
registries and analytics are all those of the input state. -/
theorem C4_disabled_commands_mutate_nothing (funcName : String)
    (handler : Forwarder → Event → Forwarder × List Reply)
    (st : Forwarder) (ev : Event)
    (hdis : st.forwarding_enabled = false)
    (hfn : funcName ≠ "cmd_start")
    (hcn : commandNameOf ev.text ≠ some "/start") :
    (admin_only funcName handler st ev).1 = st := by
  rw [admin_only]
  cases hc : commandNameOf ev.text with
  | none => rfl
  | some cn =>
    cases hs : ev.sender with
    | none => rfl
    | some sender =>
      by_cases hmem : sender ∈ st.admins
      · have hstart : (decide (funcName = "cmd_start") || decide (cn = "/start")) = false := by
          have hcn2 : cn ≠ "/start" := fun h => hcn (by rw [hc, h])
          simp [hfn, hcn2]
        dsimp only
        rw [if_neg (not_not_intro hmem)]
        simp only [hstart, hdis, Bool.false_and, Bool.false_eq_true, if_false,
          Bool.not_false, if_true]
      · dsimp only
        rw [if_pos hmem]

/-- Closed instance of C4: `/timer` from the admin 7 while disabled
leaves the state unchanged, for a handler that would have mutated it. -/
theorem C4_disabled_commands_mutate_nothing_witness :
    (admin_only "cmd_timer"
        (fun st _ => ({ st with forward_interval := 60 }, []))
        { baseState with forwarding_enabled := false } ⟨some 7, "/timer 60"⟩).1 =
      { baseState with forwarding_enabled := false } :=
  C4_disabled_commands_mutate_nothing "cmd_timer"
    (fun st _ => ({ st with forward_interval := 60 }, []))
    { baseState with forwarding_enabled := false } ⟨some 7, "/timer 60"⟩
    rfl (by decide) (by decide)

/-! ## Claim C6: one-shot scheduled delivery -/

/-- C6 (amended): a one-shot schedule stores a reference to the live
destination-set object, not a snapshot, so at fire time it delivers to
the destination set as it stands then (mutations between scheduling and
firing are visible); the job terminates (the task finishes, no new task
is created and the schedule registry is not re-armed) and never
reschedules itself. -/
theorem C6_one_shot_fires_on_live_set (st : Forwarder) (m time_str : String)
    (now : Int) (rand : List String) (st1 : Forwarder) (sid : String) (tid : Nat)
    (liveNow : Finset Int)
    (h : cmd_schedule st m time_str now rand = (st1, Reply.scheduleSet sid))
    (htid : st1.scheduled_tasks.lookup sid = some tid)
    (hm : (st.stored_messages.lookup m).isSome) :
    (schedule_forward_fire { st1 with target_chats := liveNow } tid).2 = liveNow ∧
    (schedule_forward_fire { st1 with target_chats := liveNow } tid).1.tasks.status tid =
      TaskStatus.finished ∧
    (schedule_forward_fire { st1 with target_chats := liveNow } tid).1.tasks.next =
      st1.tasks.next ∧
    (schedule_forward_fire { st1 with target_chats := liveNow } tid).1.scheduled_tasks =
      st1.scheduled_tasks := by
  obtain ⟨t, cid, hpt, hnlt, hgen, hsid, hst1⟩ :=
    cmd_schedule_success_inv st m time_str now rand st1 sid h
  subst hsid
  have htid0 : tid = st.tasks.next := by
    rw [hst1] at htid
    have : (dictSet st.scheduled_tasks ("sched_" ++ cid) st.tasks.next).lookup
        ("sched_" ++ cid) = some st.tasks.next := lookup_dictSet_self _ _ _
    rw [this] at htid
    exact (Option.some.injEq _ _).mp htid.symm
  have hjob : st1.tasks.job tid = some (Job.oneShot m .live t) := by
    rw [hst1]
    show ((st.tasks.spawn (Job.oneShot m TargetsRef.live t)).1).job tid = _
    rw [spawn_job, htid0, if_pos rfl]
  have hstat : st1.tasks.status tid = TaskStatus.running := by
    rw [hst1]
    show ((st.tasks.spawn (Job.oneShot m TargetsRef.live t)).1).status tid = _
    rw [spawn_status, htid0, if_pos rfl]
  have hms : (st1.stored_messages.lookup m).isSome := by
    rw [hst1]
    exact hm
  obtain ⟨v, hv⟩ := Option.isSome_iff_exists.mp hms
  rw [schedule_forward_fire]
  dsimp only
  simp only [hjob, hstat]
  rw [if_neg (show ¬((st1.stored_messages.lookup m).isNone = true) by
    rw [hv]; simp)]
  refine ⟨rfl, ?_, rfl, rfl⟩
  show (st1.tasks.finish tid).status tid = _
  rw [finish_status, if_pos rfl, hstat, if_pos rfl]

/-- Closed instance of C6: the schedule created on `baseState` fires on
the mutated destination set. -/
theorem C6_one_shot_fires_on_live_set_witness :
    (schedule_forward_fire { c6Scheduled.1 with target_chats := ({100, 200} : Finset Int) } 0).2 =
      ({100, 200} : Finset Int) ∧
    (schedule_forward_fire { c6Scheduled.1 with target_chats := ({100, 200} : Finset Int) } 0).1.tasks.status 0 =
      TaskStatus.finished ∧
    (schedule_forward_fire { c6Scheduled.1 with target_chats := ({100, 200} : Finset Int) } 0).1.tasks.next =
      c6Scheduled.1.tasks.next ∧
    (schedule_forward_fire { c6Scheduled.1 with target_chats := ({100, 200} : Finset Int) } 0).1.scheduled_tasks =
      c6Scheduled.1.scheduled_tasks :=
  C6_one_shot_fires_on_live_set baseState "1" "5m" 1700000000123456 []
    c6Scheduled.1 "sched_2" 0 ({100, 200} : Finset Int) rfl (by decide) (by decide)

/-- C6 as frozen is false at a concrete input: the delivery of the
schedule created when the destination set was exactly 100 goes to the
set mutated by a later `/addtarget 200`, not to the creation-time
snapshot. -/
theorem C6_counterexample :
    c6Scheduled.2 = Reply.scheduleSet "sched_2" ∧
    c6Scheduled.1.target_chats = ({100} : Finset Int) ∧
    (schedule_forward_fire c6Mutated 0).2 = ({100, 200} : Finset Int) ∧
    (schedule_forward_fire c6Mutated 0).2 ≠ c6Scheduled.1.target_chats := by
  refine ⟨rfl, by decide, by decide, by decide⟩

/-! ## Claim C7: the time expression grammar -/

/-- The digit-run scanner splits a digit list followed by a non-digit
remainder exactly there. -/
theorem leadingDigits_append (ds rest : List Char)
    (hds : ∀ c ∈ ds, c.isDigit)
    (hrest : ∀ c, rest.head? = some c → ¬(c.isDigit = true)) :
    leadingDigits (ds ++ rest) = (ds, rest) := by
  induction ds with
  | nil =>
    cases rest with
    | nil => rfl
    | cons c t =>
      rw [List.nil_append, leadingDigits]
      rw [if_neg (hrest c rfl)]
  | cons a t ih =>
    rw [List.cons_append, leadingDigits]
    rw [if_pos (hds a (List.mem_cons_self a t))]
    rw [ih (fun ch hch => hds ch (List.mem_cons_of_mem a hch))]

/-- The clock regular expression on a five-character `HH:MM` input. -/
theorem parseHHMM_eq (a b c d : Char)
    (ha : a.isDigit) (hb : b.isDigit) (hc : c.isDigit) (hd : d.isDigit) :
    parseHHMM [a, b, ':', c, d] =
      some (10 * charVal a + charVal b, 10 * charVal c + charVal d) := by
  rw [parseHHMM]
  rw [if_pos ha, if_pos hb]
  rw [if_pos ⟨hc, hd⟩]

/-- C7 (amended): the time grammar evaluates as the code does.  A digit
run followed by the character m resolves to that many minutes after
`now` and followed by h to that many hours after `now` (so `5m` at T
gives T+300s, and `0m` gives exactly T); a valid `HH:MM` resolves to
today at that clock time, or tomorrow when that instant is strictly
before `now`; `YYYY-MM-DD HH:MM` is absolute, independent of `now`; an
unparsable expression is rejected by `cmd_schedule` as invalid; and a
fire time is rejected as past exactly when it is strictly before `now`
at creation: a fire time equal to `now` (not strictly in the future) is
accepted. -/
theorem C7_time_grammar
    (now : Int)
    (ds : List Char) (hne : ds ≠ []) (hdig : ∀ ch ∈ ds, ch.isDigit)
    (a b c d : Char) (ha : a.isDigit) (hb : b.isDigit) (hc : c.isDigit) (hd : d.isDigit)
    (hh : 10 * charVal a + charVal b ≤ 23) (hmi : 10 * charVal c + charVal d ≤ 59)
    (st : Forwarder) (m : String) (hm : (st.stored_messages.lookup m).isSome)
    (rand : List String) (cid : String)
    (hgen : generate_campaign_id (storedKeys st) rand = some cid)
    (s_bad : String) (hbad : parse_schedule_time now s_bad = none)
    (s_past : String) (t_past : Int)
    (hp : parse_schedule_time now s_past = some t_past) (hlt : t_past < now)
    (s_now : String) (hn : parse_schedule_time now s_now = some now) :
    parse_schedule_time now (String.mk (ds ++ ['m'])) =
      some (now + (digitsToNat ds : Int) * 60000000) ∧
    parse_schedule_time now (String.mk (ds ++ ['h'])) =
      some (now + (digitsToNat ds : Int) * 3600000000) ∧
    parse_schedule_time now (String.mk [a, b, ':', c, d]) =
      some (if (now - now.emod usecPerDay) +
            (((10 * charVal a + charVal b) * 3600 +
              (10 * charVal c + charVal d) * 60 : Nat) : Int) * 1000000 < now
        then (now - now.emod usecPerDay) +
            (((10 * charVal a + charVal b) * 3600 +
              (10 * charVal c + charVal d) * 60 : Nat) : Int) * 1000000 + usecPerDay
        else (now - now.emod usecPerDay) +
            (((10 * charVal a + charVal b) * 3600 +
              (10 * charVal c + charVal d) * 60 : Nat) : Int) * 1000000) ∧
    parse_schedule_time now "2030-12-25 14:30" =
      some (daysFromCivil 2030 12 25 * usecPerDay +
        ((14 * 3600 + 30 * 60 : Nat) : Int) * 1000000) ∧
    cmd_schedule st m s_bad now rand = (st, Reply.invalidTime) ∧
    cmd_schedule st m s_past now rand = (st, Reply.pastTime) ∧
    (cmd_schedule st m s_now now rand).2 = Reply.scheduleSet ("sched_" ++ cid) := by
  obtain ⟨v, hv⟩ := Option.isSome_iff_exists.mp hm
  have hnotm : ¬((st.stored_messages.lookup m).isNone = true) := by rw [hv]; simp
  have hm' : leadingDigits (ds ++ ['m']) = (ds, ['m']) :=
    leadingDigits_append ds ['m'] hdig
      (fun ch hch => by
        have h3 := Option.some.inj (show (some 'm' : Option Char) = some ch from hch)
        rw [← h3]; decide)
  have hh' : leadingDigits (ds ++ ['h']) = (ds, ['h']) :=
    leadingDigits_append ds ['h'] hdig
      (fun ch hch => by
        have h3 := Option.some.inj (show (some 'h' : Option Char) = some ch from hch)
        rw [← h3]; decide)
  have hclock : leadingDigits [a, b, ':', c, d] = ([a, b], ':' :: [c, d]) :=
    leadingDigits_append [a, b] (':' :: [c, d])
      (by
        intro ch hch
        have h4 : ch = a ∨ ch = b := by simpa using hch
        rcases h4 with h4 | h4
        · rw [h4]; exact ha
        · rw [h4]; exact hb)
      (fun ch hch => by
        have h3 := Option.some.inj (show (some ':' : Option Char) = some ch from hch)
        rw [← h3]; decide)
  refine ⟨?_, ?_, ?_, ?_, ?_, ?_, ?_⟩
  · rw [parse_schedule_time]
    dsimp only
    rw [hm']
    dsimp only
    rw [if_pos (show ds ≠ [] ∧ (List.head? ['m'] = some 'm' ∨ List.head? ['m'] = some 'h')
        from ⟨hne, Or.inl rfl⟩)]
    rw [if_pos (show List.head? ['m'] = some 'm' from rfl)]
  · rw [parse_schedule_time]
    dsimp only
    rw [hh']
    dsimp only
    rw [if_pos (show ds ≠ [] ∧ (List.head? ['h'] = some 'm' ∨ List.head? ['h'] = some 'h')
        from ⟨hne, Or.inr rfl⟩)]
    rw [if_neg (show ¬(List.head? ['h'] = some 'm') by decide)]
  · rw [parse_schedule_time]
    dsimp only
    rw [hclock]
    dsimp only
    rw [if_neg (show ¬([a, b] ≠ [] ∧ (List.head? (':' :: [c, d]) = some 'm' ∨
        List.head? (':' :: [c, d]) = some 'h')) from by
      rintro ⟨-, h2 | h2⟩
      · exact absurd (Option.some.inj
          (show (some ':' : Option Char) = some 'm' from h2)) (by decide)
      · exact absurd (Option.some.inj
          (show (some ':' : Option Char) = some 'h' from h2)) (by decide))]
    rw [parseHHMM_eq a b c d ha hb hc hd]
    dsimp only
    rw [if_pos (show 10 * charVal a + charVal b ≤ 23 ∧ 10 * charVal c + charVal d ≤ 59
        from ⟨hh, hmi⟩)]
  · rfl
  · rw [cmd_schedule, if_neg hnotm, hbad]
  · rw [cmd_schedule, if_neg hnotm, hp]
    dsimp only
    rw [if_pos hlt]
  · rw [cmd_schedule, if_neg hnotm, hn]
    dsimp only
    rw [if_neg (lt_irrefl now), hgen]

/-- Closed instance of C7 at `now = 1700000000123456`: `5m`, `12:30`,
the fixed absolute date, the unparsable `xyz`, the past
`2020-01-01 00:00`, and the boundary acceptance of `0m`. -/
theorem C7_time_grammar_witness :
    parse_schedule_time 1700000000123456 (String.mk (['5'] ++ ['m'])) =
      some (1700000000123456 + (digitsToNat ['5'] : Int) * 60000000) ∧
    parse_schedule_time 1700000000123456 (String.mk (['5'] ++ ['h'])) =
      some (1700000000123456 + (digitsToNat ['5'] : Int) * 3600000000) ∧
    parse_schedule_time 1700000000123456 (String.mk ['1', '2', ':', '3', '0']) =
      some (if (1700000000123456 - Int.emod 1700000000123456 usecPerDay) +
            (((10 * charVal '1' + charVal '2') * 3600 +
              (10 * charVal '3' + charVal '0') * 60 : Nat) : Int) * 1000000 < 1700000000123456
        then (1700000000123456 - Int.emod 1700000000123456 usecPerDay) +
            (((10 * charVal '1' + charVal '2') * 3600 +
              (10 * charVal '3' + charVal '0') * 60 : Nat) : Int) * 1000000 + usecPerDay
        else (1700000000123456 - Int.emod 1700000000123456 usecPerDay) +
            (((10 * charVal '1' + charVal '2') * 3600 +
              (10 * charVal '3' + charVal '0') * 60 : Nat) : Int) * 1000000) ∧
    parse_schedule_time 1700000000123456 "2030-12-25 14:30" =
      some (daysFromCivil 2030 12 25 * usecPerDay +
        ((14 * 3600 + 30 * 60 : Nat) : Int) * 1000000) ∧
    cmd_schedule baseState "1" "xyz" 1700000000123456 [] =
      (baseState, Reply.invalidTime) ∧
    cmd_schedule baseState "1" "2020-01-01 00:00" 1700000000123456 [] =
      (baseState, Reply.pastTime) ∧
    (cmd_schedule baseState "1" "0m" 1700000000123456 []).2 =
      Reply.scheduleSet ("sched_" ++ "2") :=
  C7_time_grammar 1700000000123456 ['5'] (by decide) (by decide)
    '1' '2' '3' '0' (by decide) (by decide) (by decide) (by decide)
    (by decide) (by decide) baseState "1" (by decide) [] "2" rfl
    "xyz" rfl "2020-01-01 00:00" 1577836800000000 rfl (by decide) "0m" rfl

/-- C7 as frozen is false at the concrete input `0m`: the fire time it
resolves to is exactly the creation instant, which is not strictly in
the future, yet `cmd_schedule` accepts it (the code rejects only times
strictly in the past). -/
theorem C7_counterexample :
    parse_schedule_time 1700000000123456 "0m" = some 1700000000123456 ∧
    (cmd_schedule baseState "1" "0m" 1700000000123456 []).2 =
      Reply.scheduleSet "sched_2" :=
  ⟨rfl, rfl⟩

/-! ## Claim C8: identifier allocation -/

/-- C8 (amended): `generate_campaign_id` never returns an identifier in
the set it consults, and message-id allocation keeps the saved ids
distinct: each `cmd_setad` records its fresh id, so key distinctness is
preserved, and the first nine saves from an empty store yield exactly
"1".."9" in order.  But campaign and schedule allocations consult only
the stored-message keys and record nothing there: `cmd_targetedad`
leaves `stored_messages` unchanged, so a later allocation draws from
the same set and can repeat an identifier already in use as a campaign
or schedule id. -/
theorem C8_identifier_allocation
    (existing rand : List String) (s : String)
    (hgen : generate_campaign_id existing rand = some s)
    (st : Forwarder) (msg : Nat) (randB : List String)
    (hnd : (storedKeys st).Nodup)
    (stT : Forwarder) (mT : String) (tgts : Finset Int) (ivT : Nat) (nowT : Int)
    (randT : List String) (st2 : Forwarder) (cid : String)
    (hT : cmd_targetedad stT mT tgts (some ivT) nowT randT =
      (st2, Reply.campaignStarted cid)) :
    s ∉ existing ∧
    (storedKeys (cmd_setad st msg randB).1).Nodup ∧
    st2.stored_messages = stT.stored_messages ∧
    storedKeys (setadIter 9 emptyStored) =
      ["1", "2", "3", "4", "5", "6", "7", "8", "9"] := by
  refine ⟨?_, ?_, ?_, by decide⟩
  · have hp := List.find?_some hgen
    simpa using hp
  · rw [cmd_setad]
    cases hg : generate_campaign_id (storedKeys st) randB with
    | none => exact hnd
    | some id2 =>
      show ((dictSet st.stored_messages id2 msg).map Prod.fst).Nodup
      exact nodup_keys_dictSet _ _ _ hnd
  · obtain ⟨_, hst2⟩ :=
      cmd_targetedad_success_inv stT mT tgts ivT nowT randT st2 cid hT
    rw [hst2]

/-- Closed instance of C8: the allocation over the key set of
`baseState` returns the fresh id "2", one save keeps keys distinct, a
targeted campaign leaves the stored messages untouched, and nine saves
from the empty store allocate "1".."9". -/
theorem C8_identifier_allocation_witness :
    "2" ∉ ["1"] ∧
    (storedKeys (cmd_setad baseState 0 []).1).Nodup ∧
    (cmd_targetedad baseState "1" ({100} : Finset Int) (some 60) 0 []).1.stored_messages =
      baseState.stored_messages ∧
    storedKeys (setadIter 9 emptyStored) =
      ["1", "2", "3", "4", "5", "6", "7", "8", "9"] :=
  C8_identifier_allocation ["1"] [] "2" rfl baseState 0 [] (by decide)
    baseState "1" ({100} : Finset Int) 60 0 []
    (cmd_targetedad baseState "1" ({100} : Finset Int) (some 60) 0 []).1 "2"
    (Prod.ext rfl (by decide))

/-- C8 as frozen is false at a concrete input: with the stored-message
keys unchanged between them, two consecutive campaign allocations (two
`/targetedad` runs) both return the identifier "2", so the returned
identifiers of a sequence of allocations are not all distinct. -/
theorem C8_counterexample :
    c1FirstStart.2 = Reply.campaignStarted "2" ∧
    c1SecondStart.2 = Reply.campaignStarted "2" ∧
    c1FirstStart.1.targeted_campaigns.lookup "2" ≠ none := by
  refine ⟨rfl, rfl, by decide⟩

/-! ## Claim C9: analytics summary figures -/

/-- C9: the summary reports a success rate equal to
forwards/(forwards+failures) as a percentage, reports 0 without
dividing when the denominator is 0, and the day-over-day change between
the two most recent days is computed only when at least two days are
requested and the previous day had a positive forward count — it is
omitted when that count is 0. -/
theorem C9_analytics_success_rate (a : Analytics) (dl : List String) (days : Nat) :
    ((analytics_summary a dl days).total_forwards +
        (analytics_summary a dl days).total_failures = 0 →
      (analytics_summary a dl days).success_rate = 0) ∧
    (0 < (analytics_summary a dl days).total_forwards +
        (analytics_summary a dl days).total_failures →
      (analytics_summary a dl days).success_rate =
        ((analytics_summary a dl days).total_forwards : ℚ) /
          (((analytics_summary a dl days).total_forwards : ℚ) +
            ((analytics_summary a dl days).total_failures : ℚ)) * 100) ∧
    (∀ t y rest, (analytics_summary a dl days).daily.reverse = t :: y :: rest →
      2 ≤ days → y.2.1 = 0 → (analytics_summary a dl days).change = none) ∧
    (∀ t y rest, (analytics_summary a dl days).daily.reverse = t :: y :: rest →
      2 ≤ days → 0 < y.2.1 →
      (analytics_summary a dl days).change =
        some (((t.2.1 : ℚ) - (y.2.1 : ℚ)) / (y.2.1 : ℚ) * 100)) := by
  refine ⟨?_, ?_, ?_, ?_⟩
  · intro h0
    show (if 0 < (analytics_summary a dl days).total_forwards +
        (analytics_summary a dl days).total_failures then _ else (0 : ℚ)) = (0 : ℚ)
    rw [if_neg (by omega)]
  · intro hpos
    show (if 0 < (analytics_summary a dl days).total_forwards +
        (analytics_summary a dl days).total_failures then _ else (0 : ℚ)) = _
    rw [if_pos hpos]
    rfl
  · intro t y rest hrev hdays hy0
    have hlen : 2 ≤ (analytics_summary a dl days).daily.length := by
      rw [← List.length_reverse, hrev]
      simp
    have hrev2 : (List.map (fun d => (d, day_forwards a d, day_failures a d)) dl).reverse =
        t :: y :: rest := hrev
    show (if 2 ≤ days ∧ 2 ≤ (analytics_summary a dl days).daily.length then _ else _) = _
    rw [if_pos ⟨hdays, hlen⟩, hrev2]
    dsimp only
    rw [if_neg (by omega)]
  · intro t y rest hrev hdays hy
    have hlen : 2 ≤ (analytics_summary a dl days).daily.length := by
      rw [← List.length_reverse, hrev]
      simp
    have hrev2 : (List.map (fun d => (d, day_forwards a d, day_failures a d)) dl).reverse =
        t :: y :: rest := hrev
    show (if 2 ≤ days ∧ 2 ≤ (analytics_summary a dl days).daily.length then _ else _) = _
    rw [if_pos ⟨hdays, hlen⟩, hrev2]
    dsimp only
    rw [if_pos hy]

/-- Closed instance of C9 over a two-day window with three recorded
forwards today and none yesterday: the rate is 3/(3+0) as a percentage
and the change line is omitted. -/
theorem C9_analytics_success_rate_witness :
    (analytics_summary ⟨[("2023-11-14", [("1_100", 3)])], []⟩
        ["2023-11-13", "2023-11-14"] 2).success_rate =
      ((3 : Nat) : ℚ) / (((3 : Nat) : ℚ) + ((0 : Nat) : ℚ)) * 100 ∧
    (analytics_summary ⟨[("2023-11-14", [("1_100", 3)])], []⟩
        ["2023-11-13", "2023-11-14"] 2).change = none := by
  have h := C9_analytics_success_rate ⟨[("2023-11-14", [("1_100", 3)])], []⟩
    ["2023-11-13", "2023-11-14"] 2
  refine ⟨h.2.1 (by decide), ?_⟩
  exact h.2.2.1 ("2023-11-14", 3, 0) ("2023-11-13", 0, 0) [] (by decide)
    (by decide) (by decide)

end SimpleBot
